import Mathlib

/-!
# StreamFlow core: a shallow embedding with proofs

This file embeds the core of the StreamFlow workflow engine
(`streamflow/workflow/combinator.py`, `streamflow/workflow/task.py`,
`streamflow/core/utils.py`, `streamflow/deployment/connector/base.py`,
`streamflow/deployment/helm.py`) as executable Lean definitions and proves
properties of the embedded operations.

Conventions:
* Python tokens become the inductive `Token`; a `TerminationToken` is `Token.term`.
* Async port streams become `List Token` (FIFO order); the nondeterministic
  `asyncio.wait(..., return_when=FIRST_COMPLETED)` scheduler is made explicit as a
  schedule argument (a list of port indices); a computation that suspends forever
  is `Option.none`.
* Machine-level effects that the claims refer to (raised exceptions, subprocess
  events, cached clients) are reified as explicit data.
-/

namespace Streamflow

/-- A dataflow token: a regular value token or a `TerminationToken` carrying its
port name (`streamflow.core.workflow`). -/
inductive Token where
  | val (v : String)
  | term (name : String)
deriving DecidableEq, Repr

/-- Is this token a `TerminationToken`? -/
def isTerm : Token → Bool
  | .term _ => true
  | .val _ => false

/-- Modelled from the spec: `streamflow.core.utils.check_termination` is referenced
by `combinator.py` and `task.py` but its module body is not part of the source tree;
§3 of the spec defines it: "A list of tokens is terminated iff every element is a
TerminationToken". -/
def check_termination (l : List Token) : Bool := l.all isTerm

/-- `combinator._flatten_list` (combinator.py lines 10-15) applied to a flat list of
tokens: no element is itself a Python `list`, so each step takes the
`hierarchical_list[:1] + _flatten_list(hierarchical_list[1:])` branch. -/
def flatten_tokens : List Token → List Token
  | [] => []
  | t :: rest => t :: flatten_tokens rest

/-! ## DotProductInputCombinator (combinator.py lines 18-33)

Each `get()` launches one read per port (in port insertion order, as
`self.ports.values()`), awaits all of them, and returns either the flattened token
vector or—once every port has produced a `TerminationToken`—the singleton
terminal list. We model the per-port streams as lists and successive `get()`
calls as a fuelled recursion; a `get()` that can never resume (a port with no
further token) yields no further firings. -/

/-- The vector of head tokens of all port streams; `none` when some port has no
token available (that `port.get()` would suspend forever). -/
def heads? : List (List Token) → Option (List Token)
  | [] => some []
  | [] :: _ => none
  | (t :: _) :: rest => (heads? rest).map (t :: ·)

/-- The streams remaining after every port consumed one token. -/
def behead (streams : List (List Token)) : List (List Token) :=
  streams.map List.tail

/-- The sequence of firings produced by successive `DotProductInputCombinator.get()`
calls, given the combinator `name` and the per-port token streams. Each call reads
one token from every port; if `check_termination` holds for the vector the call
returns `[TerminationToken(name)]` (and the task loop stops calling), otherwise it
returns the flattened vector. `fuel` bounds the number of calls modelled. -/
def dotRun (name : String) : Nat → List (List Token) → List (List Token)
  | 0, _ => []
  | fuel + 1, streams =>
    match heads? streams with
    | none => []
    | some hs =>
      if check_termination hs then [[Token.term name]]
      else flatten_tokens hs :: dotRun name fuel (behead streams)

/-! ## CartesianProductInputCombinator (combinator.py lines 36-101)

State: per-port `token_lists` (insertion order of `self.ports`), the list of
`terminated` port indices, and the FIFO `queue` of ready firings. Beyond the state
held by the Python object we track the remaining per-port `streams` and a `done`
flag (the `_cartesian_multiplier` coroutine has returned). The
`FIRST_COMPLETED` nondeterminism of `asyncio.wait` is an explicit schedule: each
entry names the port whose outstanding read completes next. -/

/-- `itertools.product` over a list of lists, rightmost factor varying fastest. -/
def listProd : List (List Token) → List (List Token)
  | [] => [[]]
  | l :: ls => (l.map (fun x => (listProd ls).map (fun ys => x :: ys))).flatten

/-- State of a running `CartesianProductInputCombinator` and its multiplier. -/
structure CPMState where
  token_lists : List (List Token)
  terminated : List Nat
  streams : List (List Token)
  queue : List (List Token)
  done : Bool
deriving DecidableEq, Repr

/-- One iteration of `_cartesian_multiplier` (combinator.py lines 44-74) handling
the completed read on port `p`. `none` when no such completion can happen: the
multiplier already returned, port `p` has no outstanding read (it terminated), or
its stream is exhausted. -/
def cpmStep (name : String) (st : CPMState) (p : Nat) : Option CPMState :=
  if st.done then none
  else if p ∈ st.terminated then none
  else match st.streams.get? p with
  | none => none
  | some [] => none
  | some (t :: rest) =>
    let streams' := st.streams.set p rest
    if isTerm t then
      -- lines 55-60: mark the port terminated, do not reissue the read;
      -- when the last port terminates, enqueue the terminal firing and return
      let term' := st.terminated ++ [p]
      -- `len(self.terminated) == len(self.ports)`: one token list per port
      if term'.length = st.token_lists.length then
        some { st with terminated := term', streams := streams',
                       queue := st.queue ++ [[Token.term name]], done := true }
      else
        some { st with terminated := term', streams := streams' }
    else
      -- lines 61-74: pin port p's slot to [t], take the product with the other
      -- token lists, enqueue every combination, reissue the read. NOTE: the code
      -- never appends t to token_lists[p] — the only append in the file is in
      -- _initialize (line 90) — so the token lists keep their initial one token
      -- per port for the whole run
      let prod := listProd (st.token_lists.set p [t])
      some { st with queue := st.queue ++ prod, streams := streams' }

/-- Run the multiplier under an explicit completion schedule; `none` when the
schedule names an impossible completion. -/
def cpmRun (name : String) : List Nat → CPMState → Option CPMState
  | [], st => some st
  | p :: ps, st =>
    match cpmStep name st p with
    | none => none
    | some st' => cpmRun name ps st'

/-- Result of `_initialize` (combinator.py lines 76-93) after the initial parallel
reads returned the vector `firsts` (one token per port, port order): the state left
behind and the coroutine's return value. On early termination nothing is enqueued
and the multiplier is not started; otherwise the initial tokens are appended to the
token lists, the initial vector is enqueued and the multiplier starts. -/
def cp_init (name : String) (firsts : List Token) : CPMState × Option (List Token) :=
  if check_termination firsts then
    ({ token_lists := firsts.map (fun _ => []), terminated := [], streams := [],
       queue := [], done := false }, some [Token.term name])
  else
    ({ token_lists := firsts.map (fun t => [t]), terminated := [], streams := [],
       queue := [firsts], done := false }, none)

/-- The first call to `CartesianProductInputCombinator.get()` (combinator.py lines
95-101): it awaits `_initialize()` but DISCARDS its return value, then awaits
`self.queue.get()`. We return the dequeued firing, or `none` when that await can
never complete (empty queue and no multiplier coroutine running). -/
def cp_first_get (name : String) (firsts : List Token) : Option (List Token) :=
  let st := (cp_init name firsts).1
  match st.queue with
  | f :: _ => some (flatten_tokens f)
  | [] => none

/-! ## Command assembly (core/utils.py lines 60-104)

`create_command` builds the POSIX one-liner; `encode_command` wraps it as
`echo <b64> | base64 -d | <shell>`. The `asyncio.subprocess.STDOUT` sentinel and
path-valued channels become the sum type `StdStream`. -/

/-- A value for the `stdout`/`stderr` parameters of `create_command`: the
`asyncio.subprocess.STDOUT` sentinel or a path string. (A Python `str` never
equals the integer sentinel, matching the constructor distinction here.) -/
inductive StdStream where
  | stdoutSentinel
  | path (s : String)
deriving DecidableEq, Repr

/-- Characters Python's `shlex.quote` considers safe: ASCII alphanumerics,
underscore and `@ % + = : , .` plus slash and dash (everything else matches its
ASCII `_find_unsafe` regex). -/
def shlexSafe (c : Char) : Bool :=
  ('a' ≤ c && c ≤ 'z') || ('A' ≤ c && c ≤ 'Z') || ('0' ≤ c && c ≤ '9') ||
    c = '_' || c = '@' || c = '%' || c = '+' || c = '=' || c = ':' ||
    c = ',' || c = '.' || c = '/' || c = '-'

/-- Python `shlex.quote`: `''` for the empty string, the string itself when every
character is safe, otherwise single-quoted with each `'` replaced by `'"'"'`. -/
def shlexQuote (s : String) : String :=
  if s = "" then "''"
  else if s.data.all shlexSafe then s
  else "'" ++ s.replace "'" "'\"'\"'" ++ "'"

/-- The `stderr` operand of `create_command` (core/utils.py lines 82-88): `2>&1`
when stderr equals stdout, else `2>` plus the quoted path when stderr is not the
STDOUT sentinel, else nothing. -/
def stderrOperand (stdout stderr : StdStream) : String :=
  if stderr = stdout then " 2>&1"
  else match stderr with
  | .path s => " 2>" ++ shlexQuote s
  | .stdoutSentinel => ""

/-- `streamflow.core.utils.create_command` (core/utils.py lines 60-90).
`environment` is an insertion-ordered association list (Python dict order). -/
def create_command (command : List String) (environment : Option (List (String × String)))
    (workdir : Option String) (stdin : Option String) (stdout stderr : StdStream) : String :=
  (match workdir with
   | some w => "cd " ++ w ++ " && "
   | none => "") ++
  (match environment with
   | some env => String.join (env.map (fun kv => "export " ++ kv.1 ++ "=\"" ++ kv.2 ++ "\" && "))
   | none => "") ++
  " ".intercalate command ++
  (match stdin with
   | some s => " < " ++ shlexQuote s
   | none => "") ++
  (match stdout with
   | .path s => " > " ++ shlexQuote s
   | .stdoutSentinel => "") ++
  stderrOperand stdout stderr

/-! ### Base64 over UTF-8 bytes

`encode_command` calls `base64.b64encode(command.encode("utf-8"))`. We model the
UTF-8 encoder and standard base64 with `=` padding over byte lists (`Nat < 256`),
plus a decoder (the `base64 -d` side) for the round-trip property. -/

/-- UTF-8 encoding of one character (RFC 3629), bytes as `Nat`. -/
def utf8EncodeChar (c : Char) : List Nat :=
  if c.toNat < 128 then [c.toNat]
  else if c.toNat < 2048 then [192 + c.toNat / 64, 128 + c.toNat % 64]
  else if c.toNat < 65536 then
    [224 + c.toNat / 4096, 128 + c.toNat / 64 % 64, 128 + c.toNat % 64]
  else
    [240 + c.toNat / 262144, 128 + c.toNat / 4096 % 64,
     128 + c.toNat / 64 % 64, 128 + c.toNat % 64]

/-- UTF-8 encoding of a string (Python `str.encode("utf-8")`). -/
def utf8Bytes (s : String) : List Nat := (s.data.map utf8EncodeChar).flatten

/-- The base64 alphabet. -/
def b64alphabet : List Char :=
  "ABCDEFGHIJKLMNOPQRSTUVWXYZabcdefghijklmnopqrstuvwxyz0123456789+/".data

/-- The character for a sextet (`n < 64`). -/
def b64char (n : Nat) : Char := b64alphabet.getD n 'A'

/-- Index of a character in the base64 alphabet; `none` for characters outside it
(in particular for `=`). -/
def b64index : List Char → Char → Option Nat
  | [], _ => none
  | a :: rest, c => if a = c then some 0 else (b64index rest c).map (· + 1)

/-- Sextet values of a byte list, 3 bytes to 4 sextets, with the 1- and 2-byte
tails producing 2 and 3 sextets. -/
def bytesToSextets : List Nat → List Nat
  | a :: b :: c :: rest =>
    (a / 4) :: (a % 4 * 16 + b / 16) :: (b % 16 * 4 + c / 64) :: (c % 64) :: bytesToSextets rest
  | [a, b] => [a / 4, a % 4 * 16 + b / 16, b % 16 * 4]
  | [a] => [a / 4, a % 4 * 16]
  | [] => []

/-- Standard base64 of a byte list: the sextet characters followed by `=` padding
to a multiple of four characters (Python `base64.b64encode`). -/
def b64encodeBytes (bs : List Nat) : List Char :=
  (bytesToSextets bs).map b64char ++
    (if bs.length % 3 = 1 then ['=', '=']
     else if bs.length % 3 = 2 then ['=']
     else [])

/-- Decode every character through the alphabet; fails on a foreign character. -/
def decodeSextets : List Char → Option (List Nat)
  | [] => some []
  | c :: cs =>
    match b64index b64alphabet c, decodeSextets cs with
    | some n, some ns => some (n :: ns)
    | _, _ => none

/-- Reassemble bytes from sextets: 4 sextets to 3 bytes, a tail of 2 or 3 sextets
to 1 or 2 bytes; a tail of length 1 is malformed. -/
def sextetsToBytes : List Nat → Option (List Nat)
  | [] => some []
  | [_] => none
  | [s1, s2] => some [s1 * 4 + s2 / 16]
  | [s1, s2, s3] => some [s1 * 4 + s2 / 16, s2 % 16 * 16 + s3 / 4]
  | s1 :: s2 :: s3 :: s4 :: rest =>
    (sextetsToBytes rest).map
      (fun bs => (s1 * 4 + s2 / 16) :: (s2 % 16 * 16 + s3 / 4) :: (s3 % 4 * 64 + s4) :: bs)

/-- Base64 decoding (the `base64 -d` side): drop the `=` padding, map characters
through the alphabet, reassemble the bytes. -/
def b64decodeChars (cs : List Char) : Option (List Nat) :=
  match decodeSextets (cs.filter (fun c => c ≠ '=')) with
  | some sx => sextetsToBytes sx
  | none => none

/-- `streamflow.core.utils.encode_command` (core/utils.py lines 100-104):
`echo <base64(utf8(command))> | base64 -d | <shell>`, shell defaulting to `sh`. -/
def encode_command (command : String) (shell : String := "sh") : String :=
  "echo " ++ String.mk (b64encodeBytes (utf8Bytes command)) ++ " | base64 -d | " ++ shell

/-! ## BaseTask.run output emission (task.py lines 93-119)

`run()` spawns one `_run_job` driver per firing, `await asyncio.gather(*jobs)`,
and only then puts one `TerminationToken` on each output port. Each driver ends by
putting one computed token per output port (lines 81-85, via `_retrieve_output`).
We model the cooperative interleaving of the drivers' `put` calls as an explicit
schedule choosing which driver emits next; the gather barrier is the requirement
that every driver's emission list is drained before the termination puts happen.
A `put` is a pair `(port name, token)`; a port's contents are the puts filtered
to its name, in order. -/

/-- Interleave the pending emission lists of the job drivers under a schedule.
Entry `c` means driver `c` performs its next `put`. `none` when the schedule is
impossible (no such pending put) or does not run every driver to completion —
in that case `asyncio.gather` never finishes and `run` never resumes. -/
def drainJobs : List Nat → List (List (String × Token)) → Option (List (String × Token))
  | [], jobs => if jobs.all List.isEmpty then some [] else none
  | c :: cs, jobs =>
    match jobs.get? c with
    | some (e :: rest) => (drainJobs cs (jobs.set c rest)).map (e :: ·)
    | _ => none

/-- The full sequence of `put` events of `BaseTask.run`: the drivers' interleaved
output puts (all of them, gather barrier), then one `TerminationToken` put per
output port in `self.output_ports` order (task.py lines 115-118). -/
def task_run_puts (portNames : List String) (jobs : List (List (String × Token)))
    (sched : List Nat) : Option (List (String × Token)) :=
  (drainJobs sched jobs).map
    (fun tr => tr ++ portNames.map (fun p => (p, Token.term p)))

/-- The tokens a consumer reads from port `p`, in FIFO order. -/
def portTrace (p : String) (tr : List (String × Token)) : List Token :=
  (tr.filter (fun e => e.1 == p)).map (·.2)

/-! ## BaseConnector.copy and run (deployment/connector/base.py)

Connectors and locations are identified by numbers. The raised Python exception
kinds are reified: both guard clauses in `copy` raise the bare `Exception` class
(base.py lines 283 and 340), distinct from `WorkflowExecutionException`. -/

/-- The Python exception kinds relevant to `BaseConnector.copy`. -/
inductive PyExc where
  | exc (msg : String)
  | workflowExecutionException (msg : String)
  | indexError
deriving DecidableEq, Repr

/-- Is this error a `WorkflowExecutionException`? -/
def isWorkflowExecutionException : PyExc → Bool
  | .workflowExecutionException _ => true
  | _ => false

/-- The `kind` argument of `copy` (`ConnectorCopyKind`). -/
inductive ConnectorCopyKind where
  | local_to_remote
  | remote_to_local
  | remote_to_remote
deriving DecidableEq, Repr

/-- The transfer a `copy` call performs once its guards pass. For
`remoteToRemote`, `cp_on_source` records the in-place `/bin/cp -rf` on the source
location (base.py lines 185-188) and `stream_writers` the locations that receive
the streamed tar (lines 189-244; empty when `if locations:` is falsy). -/
inductive CopyAction where
  | localToRemote (src dst : String) (locations : List Nat)
  | remoteToLocal (src dst : String) (location : Nat)
  | remoteToRemote (cp_on_source : Option Nat) (stream_writers : List Nat) (src dst : String)
deriving DecidableEq, Repr

/-- `BaseConnector._copy_remote_to_remote` (base.py lines 174-244): the action
performed and the final contents of the caller-supplied `locations` list.
`self_id` is this connector; `source_connector = none` models the `None` default
(`source_connector or self`). When this connector is the source, the source
location is a destination and `src != dst`, the file is copied in place on the
source and the source location is REMOVED from `locations` (Python
`list.remove`, first occurrence). The remaining locations receive the stream. -/
def copy_remote_to_remote (self_id : Nat) (src dst : String) (locations : List Nat)
    (source_connector : Option Nat) (source_location : Nat) : CopyAction × List Nat :=
  let sc := source_connector.getD self_id
  if sc = self_id ∧ source_location ∈ locations ∧ src ≠ dst then
    let locations' := locations.erase source_location
    (.remoteToRemote (some source_location) locations' src dst, locations')
  else
    (.remoteToRemote none locations src dst, locations)

/-- `BaseConnector.copy` (base.py lines 271-349): dispatch on `kind` with the two
guard clauses. Returns the transfer action and the final contents of the
caller-supplied `locations` list, or the raised exception (in which case no
transfer is attempted and the list is untouched). -/
def copy (self_id : Nat) (src dst : String) (locations : List Nat)
    (kind : ConnectorCopyKind) (source_connector : Option Nat)
    (source_location : Option Nat) : Except PyExc (CopyAction × List Nat) :=
  match kind with
  | .remote_to_remote =>
    match source_location with
    | none => .error (.exc "Source location is mandatory for remote to remote copy")
    | some sl => .ok (copy_remote_to_remote self_id src dst locations source_connector sl)
  | .local_to_remote => .ok (.localToRemote src dst locations, locations)
  | .remote_to_local =>
    if locations.length > 1 then
      .error (.exc "Copy from multiple locations is not supported")
    else
      match locations with
      | [l] => .ok (.remoteToLocal src dst l, locations)
      | _ => .error .indexError  -- `locations[0]` on an empty list

deriving instance DecidableEq for Except

/-- The final contents of the caller's `locations` list after a `copy` call (a
raised guard exception leaves the list as it was). -/
def locationsAfter (r : Except PyExc (CopyAction × List Nat)) (orig : List Nat) : List Nat :=
  match r with
  | .ok (_, l) => l
  | .error _ => orig

/-! ### BaseConnector.run with capture_output and a timeout (base.py lines 377-392)

The observable events of the `capture_output=True` branch. On expiry,
`asyncio.wait_for` cancels the awaited `proc.communicate()` coroutine and raises
`asyncio.TimeoutError`; cancelling the read does not signal the child process, and
`run` contains no `terminate`/`kill` call, so the child is left running. -/

/-- Events of `BaseConnector.run(capture_output=True, timeout=t)`. -/
inductive RunEvent where
  | spawnProcess
  | communicateCompleted
  | cancelCommunicate
  | raiseTimeoutError
  | terminateProcess
  | killProcess
deriving DecidableEq, Repr

/-- The event trace of the `capture_output` branch of `BaseConnector.run`,
depending on whether the child finishes within the timeout. `base.py` lines
387-389: `stdout, _ = await asyncio.wait_for(proc.communicate(), timeout=timeout)`
with no exception handler and no `proc.terminate()`/`proc.kill()` anywhere in
`run`. -/
def run_capture_events (finishesInTime : Bool) : List RunEvent :=
  if finishesInTime then
    [.spawnProcess, .communicateCompleted]
  else
    [.spawnProcess, .cancelCommunicate, .raiseTimeoutError]

/-! ## Helm connector undeploy (deployment/helm.py)

`BaseHelmConnector` caches `self.client`, `self.client_ws` and
`self.configuration` (helm.py lines 60-62, 197-219). `Helm3Connector.undeploy`
(lines 658-682) closes and clears the cached clients and clears the
configuration after spawning the `helm uninstall` process; `Helm2Connector.undeploy`
(lines 472-501) only spawns the `helm delete` process and returns, leaving all
three cached attributes untouched. Clients are identified by numbers; `closed`
records the `api_client.close()` calls performed. -/

/-- The cached API-client state of a `BaseHelmConnector`. -/
structure HelmClients where
  client : Option Nat
  client_ws : Option Nat
  configuration : Option Nat
  closed : List Nat
deriving DecidableEq, Repr

/-- Effect of `Helm3Connector.undeploy` (helm.py lines 675-682) on the cached
clients: close and clear `client` and `client_ws` when present, clear
`configuration`. -/
def helm3_undeploy_clients (s : HelmClients) : HelmClients :=
  let s1 :=
    match s.client with
    | some c => { s with closed := s.closed ++ [c], client := none }
    | none => s
  let s2 :=
    match s1.client_ws with
    | some c => { s1 with closed := s1.closed ++ [c], client_ws := none }
    | none => s1
  { s2 with configuration := none }

/-- Effect of `Helm2Connector.undeploy` (helm.py lines 472-501) on the cached
clients: the method body builds and awaits the `helm delete` command and contains
no client handling, so the cached state is unchanged. -/
def helm2_undeploy_clients (s : HelmClients) : HelmClients := s

/-! ## Concrete scenario data -/

/-- First token of port A in the 2×2 Cartesian scenario. -/
def a1 : Token := .val "a1"

/-- Second token of port A. -/
def a2 : Token := .val "a2"

/-- First token of port B. -/
def b1 : Token := .val "b1"

/-- Second token of port B. -/
def b2 : Token := .val "b2"

/-- Multiplier state right after `_initialize` consumed `(a1, b1)` from ports
`A = [a1, a2, ⊥]` and `B = [b1, b2, ⊥]`: initial tokens recorded, initial vector
enqueued, the remaining streams pending. -/
def c2Init : CPMState :=
  { token_lists := [[a1], [b1]], terminated := [],
    streams := [[a2, .term "A"], [b2, .term "B"]],
    queue := [[a1, b1]], done := false }

/-- The multiplier state after the completion schedule `[0, 1, 0, 1]`
(a2, b2, ⊥A, ⊥B) in the 2×2 scenario: since `_cartesian_multiplier` never
appends to the token lists, `(a2, b2)` is never formed. -/
def c2Final : CPMState :=
  { token_lists := [[a1], [b1]], terminated := [0, 1],
    streams := [[], []],
    queue := [[a1, b1], [a2, b1], [a1, b2], [.term "c"]], done := true }

/-! # Theorems -/

/-! ## Base64 round-trip lemmas -/

/-- Decoding a base64 character recovers its sextet. -/
theorem b64_index_char : ∀ n, n < 64 → b64index b64alphabet (b64char n) = some n := by
  decide

/-- No base64 alphabet character is the padding character. -/
theorem b64_char_ne_pad : ∀ n, n < 64 → b64char n ≠ '=' := by
  decide

/-- Sextets produced from bytes are in range. -/
theorem bytesToSextets_lt : ∀ (bs : List Nat), (∀ b ∈ bs, b < 256) →
    ∀ n ∈ bytesToSextets bs, n < 64
  | [], _ => by
    intro n hn
    rw [show bytesToSextets [] = [] from rfl] at hn
    cases hn
  | [a], h => by
    have ha : a < 256 := h a (by simp)
    simp only [bytesToSextets, List.mem_cons, List.mem_singleton, List.not_mem_nil]
    intro n hn
    rcases hn with rfl | rfl | hn
    · omega
    · omega
    · simp at hn
  | [a, b], h => by
    have ha : a < 256 := h a (by simp)
    have hb : b < 256 := h b (by simp)
    simp only [bytesToSextets, List.mem_cons, List.not_mem_nil]
    intro n hn
    rcases hn with rfl | rfl | rfl | hn
    · omega
    · omega
    · omega
    · simp at hn
  | a :: b :: c :: rest, h => by
    have ha : a < 256 := h a (by simp)
    have hb : b < 256 := h b (by simp)
    have hc : c < 256 := h c (by simp)
    have ih := bytesToSextets_lt rest (fun x hx => h x (by simp [hx]))
    simp only [bytesToSextets, List.mem_cons]
    intro n hn
    rcases hn with rfl | rfl | rfl | rfl | hn
    · omega
    · omega
    · omega
    · omega
    · exact ih n hn

/-- Reassembling the sextets of a byte list recovers the bytes. -/
theorem sextets_roundtrip : ∀ (bs : List Nat), (∀ b ∈ bs, b < 256) →
    sextetsToBytes (bytesToSextets bs) = some bs
  | [], _ => rfl
  | [a], h => by
    have ha : a < 256 := h a (by simp)
    simp only [bytesToSextets, sextetsToBytes, Option.some.injEq, List.cons.injEq, and_true]
    omega
  | [a, b], h => by
    have ha : a < 256 := h a (by simp)
    have hb : b < 256 := h b (by simp)
    simp only [bytesToSextets, sextetsToBytes, Option.some.injEq, List.cons.injEq, and_true]
    constructor <;> omega
  | a :: b :: c :: rest, h => by
    have ha : a < 256 := h a (by simp)
    have hb : b < 256 := h b (by simp)
    have hc : c < 256 := h c (by simp)
    have ih := sextets_roundtrip rest (fun x hx => h x (by simp [hx]))
    simp only [bytesToSextets, sextetsToBytes, ih, Option.map_some', Option.some.injEq,
      List.cons.injEq]
    refine ⟨?_, ?_, ?_, trivial⟩ <;> omega

/-- Decoding the alphabet characters of in-range sextets recovers them. -/
theorem decodeSextets_map_b64char : ∀ (sx : List Nat), (∀ n ∈ sx, n < 64) →
    decodeSextets (sx.map b64char) = some sx
  | [], _ => rfl
  | n :: rest, h => by
    have h1 : b64index b64alphabet (b64char n) = some n := b64_index_char n (h n (by simp))
    have ih := decodeSextets_map_b64char rest (fun x hx => h x (by simp [hx]))
    simp [decodeSextets, h1, ih]

/-- Dropping the padding from the sextet characters keeps all of them. -/
theorem filter_ne_pad_map (sx : List Nat) (h : ∀ n ∈ sx, n < 64) :
    (sx.map b64char).filter (fun c => c ≠ '=') = sx.map b64char := by
  rw [List.filter_eq_self]
  intro c hc
  obtain ⟨n, hn, rfl⟩ := List.mem_map.mp hc
  simpa using b64_char_ne_pad n (h n hn)

/-- Base64 decoding inverts base64 encoding on byte lists. -/
theorem b64_roundtrip_bytes (bs : List Nat) (h : ∀ b ∈ bs, b < 256) :
    b64decodeChars (b64encodeBytes bs) = some bs := by
  have hsx := bytesToSextets_lt bs h
  have hpad : (if bs.length % 3 = 1 then ['=', '=']
      else if bs.length % 3 = 2 then ['='] else []).filter (fun c => c ≠ '=') = [] := by
    split
    · rfl
    · split <;> rfl
  unfold b64decodeChars b64encodeBytes
  rw [List.filter_append, filter_ne_pad_map _ hsx, hpad, List.append_nil,
    decodeSextets_map_b64char _ hsx]
  exact sextets_roundtrip bs h

/-- Every code point is below `0x110000`. -/
theorem char_toNat_lt (c : Char) : c.toNat < 1114112 := by
  rcases c.valid with h | h
  · exact Nat.lt_trans h (by norm_num)
  · exact h.2

/-- UTF-8 bytes are bytes. -/
theorem utf8EncodeChar_lt (c : Char) : ∀ b ∈ utf8EncodeChar c, b < 256 := by
  have hv := char_toNat_lt c
  unfold utf8EncodeChar
  split
  · intro b hb; simp only [List.mem_singleton] at hb; omega
  · split
    · intro b hb
      rcases List.mem_cons.mp hb with rfl | hb
      · omega
      · simp only [List.mem_singleton] at hb; omega
    · split
      · intro b hb
        rcases List.mem_cons.mp hb with rfl | hb
        · omega
        rcases List.mem_cons.mp hb with rfl | hb
        · omega
        · simp only [List.mem_singleton] at hb; omega
      · intro b hb
        rcases List.mem_cons.mp hb with rfl | hb
        · omega
        rcases List.mem_cons.mp hb with rfl | hb
        · omega
        rcases List.mem_cons.mp hb with rfl | hb
        · omega
        · simp only [List.mem_singleton] at hb; omega

/-- The UTF-8 encoding of a string is a byte list. -/
theorem utf8Bytes_lt (s : String) : ∀ b ∈ utf8Bytes s, b < 256 := by
  intro b hb
  simp only [utf8Bytes, List.mem_flatten, List.mem_map] at hb
  obtain ⟨l, ⟨c, _, rfl⟩, hbl⟩ := hb
  exact utf8EncodeChar_lt c b hbl

/-- **C1** (code bug). For a `CartesianProductInputCombinator` whose first read
from every port yields a `TerminationToken`, `_initialize` does construct and
return the singleton `[TerminationToken]` — but `get()` (combinator.py line 98)
discards that return value and then awaits `self.queue.get()` on an empty queue
with no multiplier coroutine started, so the first `get()` suspends forever
instead of returning the terminal list the claim (and the spec) describe. -/
theorem c1_first_get_blocks_on_terminated_init :
    check_termination [Token.term "A", Token.term "B"] = true ∧
    (cp_init "c" [Token.term "A", Token.term "B"]).2 = some [Token.term "c"] ∧
    cp_first_get "c" [Token.term "A", Token.term "B"] = none := by
  decide

/-- **C4** (code bug). In `BaseConnector.run` with `capture_output` and a
timeout, expiry of `asyncio.wait_for` cancels `proc.communicate()` and raises
`asyncio.TimeoutError` — a distinguishable timeout error — but `run` contains no
`proc.terminate()`/`proc.kill()`, so the spawned subprocess is NOT terminated
before the error propagates, contrary to the claim. -/
theorem c4_timeout_leaves_process_running :
    run_capture_events false = [.spawnProcess, .cancelCommunicate, .raiseTimeoutError] ∧
    RunEvent.raiseTimeoutError ∈ run_capture_events false ∧
    RunEvent.terminateProcess ∉ run_capture_events false ∧
    RunEvent.killProcess ∉ run_capture_events false := by
  decide

/-- **C5** (counterexample). Both guard clauses of `BaseConnector.copy` raise the
bare Python `Exception` (base.py lines 283 and 340), not a
`WorkflowExecutionException` as the claim states: shown here for
`REMOTE_TO_REMOTE` with a missing source location and for `REMOTE_TO_LOCAL` with
two destination locations. -/
theorem c5_guards_raise_bare_exception :
    copy 0 "/s" "/d" [1] .remote_to_remote none none =
      .error (.exc "Source location is mandatory for remote to remote copy") ∧
    copy 0 "/s" "/d" [1, 2] .remote_to_local none none =
      .error (.exc "Copy from multiple locations is not supported") ∧
    isWorkflowExecutionException (.exc "Source location is mandatory for remote to remote copy") = false ∧
    isWorkflowExecutionException (.exc "Copy from multiple locations is not supported") = false := by
  decide

/-- **C5** (amended). `BaseConnector.copy` raises an exception — the generic
`Exception`, not `WorkflowExecutionException` — both for `REMOTE_TO_REMOTE`
without a source location and for `REMOTE_TO_LOCAL` with more than one
destination; in both cases the call fails before any transfer is attempted. -/
theorem c5_guards_raise_and_skip_transfer (self_id : Nat) (src dst : String)
    (locations : List Nat) (sc : Option Nat) (sl : Option Nat) :
    copy self_id src dst locations .remote_to_remote sc none =
      .error (.exc "Source location is mandatory for remote to remote copy") ∧
    (locations.length > 1 →
      copy self_id src dst locations .remote_to_local sc sl =
        .error (.exc "Copy from multiple locations is not supported")) := by
  refine ⟨rfl, fun h => ?_⟩
  simp [copy, h]

/-- Witness for `c5_guards_raise_and_skip_transfer` at two concrete locations. -/
theorem c5_guards_raise_and_skip_transfer_witness :
    copy 0 "/s" "/d" [1, 2] .remote_to_local none none =
      .error (.exc "Copy from multiple locations is not supported") :=
  (c5_guards_raise_and_skip_transfer 0 "/s" "/d" [1, 2] none none).2 (by decide)

/-- **C6**. The stderr operand of `create_command` is ` 2>&1` when stderr equals
stdout, ` 2>` plus the shell-quoted path when it differs from stdout and is not
the STDOUT sentinel, and nothing when it is the STDOUT sentinel (and differs from
stdout); and the claim's concrete command assembles exactly as stated. -/
theorem c6_stderr_rendering (stdout stderr : StdStream) :
    (stderr = stdout → stderrOperand stdout stderr = " 2>&1") ∧
    (stderr ≠ stdout → ∀ s, stderr = .path s →
      stderrOperand stdout stderr = " 2>" ++ shlexQuote s) ∧
    (stderr ≠ stdout → stderr = .stdoutSentinel → stderrOperand stdout stderr = "") ∧
    create_command ["echo", "hi"] (some [("A", "1")]) (some "/w") (some "in.txt")
        (.path "out.txt") .stdoutSentinel =
      "cd /w && export A=\"1\" && echo hi < in.txt > out.txt" := by
  refine ⟨fun h => by simp [stderrOperand, h], fun h s hs => ?_, fun h hs => ?_, by decide⟩
  · subst hs; simp [stderrOperand, h]
  · subst hs; simp [stderrOperand, h]

/-- Witness for `c6_stderr_rendering`: all three cases at concrete operands. -/
theorem c6_stderr_rendering_witness :
    stderrOperand (.path "o") (.path "o") = " 2>&1" ∧
    stderrOperand (.path "o") (.path "e") = " 2>" ++ shlexQuote "e" ∧
    stderrOperand (.path "o") .stdoutSentinel = "" :=
  ⟨(c6_stderr_rendering (.path "o") (.path "o")).1 rfl,
   (c6_stderr_rendering (.path "o") (.path "e")).2.1 (by decide) "e" rfl,
   (c6_stderr_rendering (.path "o") .stdoutSentinel).2.2.1 (by decide) rfl⟩

/-- **C7**. `encode_command C shell` is exactly
`echo <b64> | base64 -d | <shell>` with `<b64>` the base64 of the UTF-8 bytes of
`C` (shell defaulting to `sh` at the call sites), base64-decoding `<b64>`
recovers the bytes of `C`, and `create_command` is deterministic: identical
inputs yield the identical command string. -/
theorem c7_encode_command_roundtrip (C shell : String)
    (cmd cmd' : List String) (env env' : Option (List (String × String)))
    (wd wd' si si' : Option String) (so so' se se' : StdStream)
    (h : cmd = cmd' ∧ env = env' ∧ wd = wd' ∧ si = si' ∧ so = so' ∧ se = se') :
    encode_command C shell =
      "echo " ++ String.mk (b64encodeBytes (utf8Bytes C)) ++ " | base64 -d | " ++ shell ∧
    b64decodeChars (b64encodeBytes (utf8Bytes C)) = some (utf8Bytes C) ∧
    create_command cmd env wd si so se = create_command cmd' env' wd' si' so' se' := by
  obtain ⟨rfl, rfl, rfl, rfl, rfl, rfl⟩ := h
  exact ⟨rfl, b64_roundtrip_bytes _ (utf8Bytes_lt C), rfl⟩

/-- Witness for `c7_encode_command_roundtrip` at a concrete command. -/
theorem c7_encode_command_roundtrip_witness :
    encode_command "echo hi" "sh" =
      "echo " ++ String.mk (b64encodeBytes (utf8Bytes "echo hi")) ++ " | base64 -d | sh" ∧
    b64decodeChars (b64encodeBytes (utf8Bytes "echo hi")) = some (utf8Bytes "echo hi") ∧
    create_command ["echo", "hi"] none none none .stdoutSentinel .stdoutSentinel =
      create_command ["echo", "hi"] none none none .stdoutSentinel .stdoutSentinel :=
  c7_encode_command_roundtrip "echo hi" "sh" ["echo", "hi"] ["echo", "hi"] none none
    none none none none .stdoutSentinel .stdoutSentinel .stdoutSentinel .stdoutSentinel
    ⟨rfl, rfl, rfl, rfl, rfl, rfl⟩

/-! ## DotProduct lemmas -/

/-- `_flatten_list` is the identity on flat token lists. -/
theorem flatten_tokens_eq : ∀ (l : List Token), flatten_tokens l = l
  | [] => rfl
  | t :: rest => by rw [flatten_tokens, flatten_tokens_eq rest]

/-- `heads?` of streams that all have a token is the vector of first tokens. -/
theorem heads?_eq (d : Token) : ∀ (streams : List (List Token)),
    (∀ s ∈ streams, s ≠ []) →
    heads? streams = some (streams.map (fun s => s.getD 0 d))
  | [], _ => rfl
  | s :: rest, h => by
    match s, h s (by simp) with
    | t :: ts, _ =>
      rw [heads?, heads?_eq d rest (fun x hx => h x (by simp [hx]))]
      rfl

/-- Indexing the tail shifts the index. -/
theorem getD_tail (s : List Token) (i : Nat) (d : Token) :
    s.tail.getD i d = s.getD (i + 1) d := by
  cases s <;> rfl

/-- One `DotProductInputCombinator.get()` call, the head vector being known. -/
theorem dotRun_succ_of_heads (name : String) (fuel : Nat) (streams : List (List Token))
    (X : List Token) (hX : heads? streams = some X) :
    dotRun name (fuel + 1) streams =
      if check_termination X = true then [[Token.term name]]
      else flatten_tokens X :: dotRun name fuel (behead streams) := by
  rw [dotRun, hX]

/-- **C3**. For a `DotProductInputCombinator` over ports each delivering `K`
non-terminal tokens and then a `TerminationToken`, successive `get()` calls
produce exactly `K` firings — the `i`-th being the vector of the ports' `i`-th
tokens, in port insertion order and per-port FIFO order — followed by exactly one
singleton terminal firing. -/
theorem c3_dot_product_firings : ∀ (K : Nat) (streams : List (List Token)) (name : String),
    streams ≠ [] →
    (∀ s ∈ streams, s.length = K + 1 ∧
      (∀ i, i < K → isTerm (s.getD i (Token.term "")) = false) ∧
      isTerm (s.getD K (Token.term "")) = true) →
    dotRun name (K + 1) streams =
      (List.range K).map (fun i => streams.map (fun s => s.getD i (Token.term ""))) ++
        [[Token.term name]]
  | 0, streams, name => by
    intro hne h
    have hnonempty : ∀ s ∈ streams, s ≠ [] := by
      intro s hs
      have := (h s hs).1
      intro hnil
      simp [hnil] at this
    rw [dotRun_succ_of_heads name 0 streams _ (heads?_eq (Token.term "") streams hnonempty)]
    have hterm : check_termination (streams.map (fun s => s.getD 0 (Token.term ""))) = true := by
      simp only [check_termination, List.all_eq_true, List.mem_map]
      rintro t ⟨s, hs, rfl⟩
      exact (h s hs).2.2
    rw [if_pos hterm]
    simp
  | K + 1, streams, name => by
    intro hne h
    have hnonempty : ∀ s ∈ streams, s ≠ [] := by
      intro s hs
      have := (h s hs).1
      intro hnil
      simp [hnil] at this
    rw [dotRun_succ_of_heads name (K + 1) streams _
      (heads?_eq (Token.term "") streams hnonempty)]
    obtain ⟨s0, rest0, rfl⟩ : ∃ s0 rest0, streams = s0 :: rest0 := by
      cases streams with
      | nil => exact absurd rfl hne
      | cons a l => exact ⟨a, l, rfl⟩
    have hterm : ¬(check_termination ((s0 :: rest0).map (fun s => s.getD 0 (Token.term ""))) = true) := by
      have h0 : isTerm (s0.getD 0 (Token.term "")) = false :=
        (h s0 (by simp)).2.1 0 (Nat.succ_pos K)
      simp only [check_termination, List.map_cons, List.all_cons, h0, Bool.false_and]
      exact Bool.false_ne_true
    have ih := c3_dot_product_firings K (behead (s0 :: rest0)) name
      (by simp [behead])
      (by
        intro s hs
        simp only [behead, List.mem_map] at hs
        obtain ⟨s', hs', rfl⟩ := hs
        obtain ⟨hlen, hnon, hK⟩ := h s' hs'
        refine ⟨?_, ?_, ?_⟩
        · cases s' with
          | nil => simp at hlen
          | cons a l => simpa using hlen
        · intro i hi
          rw [getD_tail]
          exact hnon (i + 1) (by omega)
        · rw [getD_tail]
          exact hK)
    rw [if_neg hterm, flatten_tokens_eq, ih, List.range_succ_eq_map]
    simp only [List.map_cons, List.cons_append]
    congr 1
    have hfun : (fun i => List.map (fun s => s.getD i (Token.term "")) (behead (s0 :: rest0))) =
        ((fun i => s0.getD i (Token.term "") ::
          List.map (fun s => s.getD i (Token.term "")) rest0) ∘ Nat.succ) := by
      funext i
      simp only [Function.comp_apply, behead, List.map_cons, List.map_map,
        Nat.succ_eq_add_one]
      rw [getD_tail]
      have htl : ((fun s => s.getD i (Token.term "")) ∘ List.tail) =
          (fun s : List Token => s.getD (i + 1) (Token.term "")) := by
        funext s
        exact getD_tail s i (Token.term "")
      rw [htl]
    rw [hfun, List.map_map]

/-- Witness for `c3_dot_product_firings`: one port, one token, then the
terminal firing. -/
theorem c3_dot_product_firings_witness :
    dotRun "c" 2 [[Token.val "x", Token.term "P"]] =
      [[Token.val "x"], [Token.term "c"]] :=
  c3_dot_product_firings 1 [[Token.val "x", Token.term "P"]] "c" (by decide) (by decide)

/-- **C9** (counterexample). `Helm2Connector.undeploy` does not release the
cached API clients: starting from a connector holding a cached Kubernetes client,
a websocket client and a configuration, the cached state after `undeploy()` is
unchanged — the claim fails for the Helm 2 variant. -/
theorem c9_helm2_keeps_clients :
    helm2_undeploy_clients ⟨some 1, some 2, some 3, []⟩ = ⟨some 1, some 2, some 3, []⟩ ∧
    (helm2_undeploy_clients ⟨some 1, some 2, some 3, []⟩).client ≠ none ∧
    (helm2_undeploy_clients ⟨some 1, some 2, some 3, []⟩).client_ws ≠ none ∧
    (helm2_undeploy_clients ⟨some 1, some 2, some 3, []⟩).configuration ≠ none := by
  decide

/-- **C9** (amended). After `undeploy()`, `Helm3Connector` releases every cached
API client — the cached Kubernetes client and websocket client are closed and
cleared and the stored configuration is cleared — while `Helm2Connector.undeploy`
leaves all cached clients and the configuration untouched. -/
theorem c9_undeploy_client_release (s : HelmClients) :
    (helm3_undeploy_clients s).client = none ∧
    (helm3_undeploy_clients s).client_ws = none ∧
    (helm3_undeploy_clients s).configuration = none ∧
    (∀ c, s.client = some c → c ∈ (helm3_undeploy_clients s).closed) ∧
    (∀ c, s.client_ws = some c → c ∈ (helm3_undeploy_clients s).closed) ∧
    helm2_undeploy_clients s = s := by
  obtain ⟨cl, ws, cfg, closed⟩ := s
  rcases cl with _ | c <;> rcases ws with _ | w <;>
    simp [helm3_undeploy_clients, helm2_undeploy_clients]

/-- Witness for `c9_undeploy_client_release` at a concrete cached state. -/
theorem c9_undeploy_client_release_witness :
    1 ∈ (helm3_undeploy_clients ⟨some 1, some 2, some 3, []⟩).closed ∧
    2 ∈ (helm3_undeploy_clients ⟨some 1, some 2, some 3, []⟩).closed :=
  ⟨(c9_undeploy_client_release ⟨some 1, some 2, some 3, []⟩).2.2.2.1 1 rfl,
   (c9_undeploy_client_release ⟨some 1, some 2, some 3, []⟩).2.2.2.2.1 2 rfl⟩

/-! ## Cartesian 2×2 scenario -/

/-- **C2** (code bug). For a `CartesianProductInputCombinator` over two ports
delivering `[a1, a2, ⊥]` and `[b1, b2, ⊥]`: `_cartesian_multiplier`
(combinator.py lines 61-74) never appends the newly received token to
`self.token_lists` — the only append in the file is in `_initialize` (line 90) —
so the per-port lists keep their single initial token for the whole run. Under
EVERY completion schedule that runs the multiplier to termination, the queue of
firings starts with the initial vector `(a1, b1)`, its non-terminal part is a
permutation of `{(a1,b1), (a2,b1), (a1,b2)}` only — the pair `(a2, b2)` is never
enqueued — and exactly one terminal firing ends it. The claimed four-pair
multiset is therefore false on the code, while the spec's multiplier loop
("append T to token_lists[P]") describes the clearly intended behaviour. -/
theorem c2_cartesian_missing_combination (sched : List Nat) (final : CPMState)
    (hrun : cpmRun "c" sched c2Init = some final) (hdone : final.done = true) :
    final.queue.head? = some [a1, b1] ∧
    final.queue.dropLast.Perm [[a1, b1], [a2, b1], [a1, b2]] ∧
    [a2, b2] ∉ final.queue ∧
    (∀ f ∈ final.queue.dropLast, check_termination f = false) ∧
    final.queue.getLast? = some [Token.term "c"] := by
  rcases sched with _ | ⟨p1, sched⟩
  · rw [cpmRun] at hrun
    injection hrun with h
    subst h
    simp [c2Init] at hdone
  rcases p1 with _ | _ | p1
  · -- port A completes with a2
    simp [cpmRun, cpmStep, listProd, c2Init, a1, a2, b1, b2, isTerm, List.get?] at hrun
    rcases sched with _ | ⟨p2, sched⟩
    · rw [cpmRun] at hrun
      injection hrun with h
      subst h
      simp at hdone
    rcases p2 with _ | _ | p2
    · -- port A completes with its TerminationToken
      simp [cpmRun, cpmStep, listProd, isTerm, List.get?] at hrun
      rcases sched with _ | ⟨p3, sched⟩
      · rw [cpmRun] at hrun
        injection hrun with h
        subst h
        simp at hdone
      rcases p3 with _ | _ | p3
      · simp [cpmRun, cpmStep, listProd, isTerm, List.get?] at hrun
      · -- port B completes with b2
        simp [cpmRun, cpmStep, listProd, isTerm, List.get?] at hrun
        rcases sched with _ | ⟨p4, sched⟩
        · rw [cpmRun] at hrun
          injection hrun with h
          subst h
          simp at hdone
        rcases p4 with _ | _ | p4
        · simp [cpmRun, cpmStep, listProd, isTerm, List.get?] at hrun
        · -- port B completes with its TerminationToken: multiplier returns
          simp [cpmRun, cpmStep, listProd, isTerm, List.get?] at hrun
          rcases sched with _ | ⟨p5, sched⟩
          · rw [cpmRun] at hrun
            injection hrun with h
            subst h
            decide
          · simp [cpmRun, cpmStep] at hrun
        · simp [cpmRun, cpmStep, listProd, isTerm, List.get?] at hrun
      · simp [cpmRun, cpmStep, listProd, isTerm, List.get?] at hrun
    · -- port B completes with b2
      simp [cpmRun, cpmStep, listProd, isTerm, List.get?] at hrun
      rcases sched with _ | ⟨p3, sched⟩
      · rw [cpmRun] at hrun
        injection hrun with h
        subst h
        simp at hdone
      rcases p3 with _ | _ | p3
      · -- port A terminates
        simp [cpmRun, cpmStep, listProd, isTerm, List.get?] at hrun
        rcases sched with _ | ⟨p4, sched⟩
        · rw [cpmRun] at hrun
          injection hrun with h
          subst h
          simp at hdone
        rcases p4 with _ | _ | p4
        · simp [cpmRun, cpmStep, listProd, isTerm, List.get?] at hrun
        · -- port B terminates: multiplier returns
          simp [cpmRun, cpmStep, listProd, isTerm, List.get?] at hrun
          rcases sched with _ | ⟨p5, sched⟩
          · rw [cpmRun] at hrun
            injection hrun with h
            subst h
            decide
          · simp [cpmRun, cpmStep] at hrun
        · simp [cpmRun, cpmStep, listProd, isTerm, List.get?] at hrun
      · -- port B terminates
        simp [cpmRun, cpmStep, listProd, isTerm, List.get?] at hrun
        rcases sched with _ | ⟨p4, sched⟩
        · rw [cpmRun] at hrun
          injection hrun with h
          subst h
          simp at hdone
        rcases p4 with _ | _ | p4
        · -- port A terminates: multiplier returns
          simp [cpmRun, cpmStep, listProd, isTerm, List.get?] at hrun
          rcases sched with _ | ⟨p5, sched⟩
          · rw [cpmRun] at hrun
            injection hrun with h
            subst h
            decide
          · simp [cpmRun, cpmStep] at hrun
        · simp [cpmRun, cpmStep, listProd, isTerm, List.get?] at hrun
        · simp [cpmRun, cpmStep, listProd, isTerm, List.get?] at hrun
      · simp [cpmRun, cpmStep, listProd, isTerm, List.get?] at hrun
    · simp [cpmRun, cpmStep, listProd, isTerm, List.get?] at hrun
  · -- port B completes with b2 first
    simp [cpmRun, cpmStep, listProd, c2Init, a1, a2, b1, b2, isTerm, List.get?] at hrun
    rcases sched with _ | ⟨p2, sched⟩
    · rw [cpmRun] at hrun
      injection hrun with h
      subst h
      simp at hdone
    rcases p2 with _ | _ | p2
    · -- port A completes with a2
      simp [cpmRun, cpmStep, listProd, isTerm, List.get?] at hrun
      rcases sched with _ | ⟨p3, sched⟩
      · rw [cpmRun] at hrun
        injection hrun with h
        subst h
        simp at hdone
      rcases p3 with _ | _ | p3
      · -- port A terminates
        simp [cpmRun, cpmStep, listProd, isTerm, List.get?] at hrun
        rcases sched with _ | ⟨p4, sched⟩
        · rw [cpmRun] at hrun
          injection hrun with h
          subst h
          simp at hdone
        rcases p4 with _ | _ | p4
        · simp [cpmRun, cpmStep, listProd, isTerm, List.get?] at hrun
        · -- port B terminates: multiplier returns
          simp [cpmRun, cpmStep, listProd, isTerm, List.get?] at hrun
          rcases sched with _ | ⟨p5, sched⟩
          · rw [cpmRun] at hrun
            injection hrun with h
            subst h
            decide
          · simp [cpmRun, cpmStep] at hrun
        · simp [cpmRun, cpmStep, listProd, isTerm, List.get?] at hrun
      · -- port B terminates
        simp [cpmRun, cpmStep, listProd, isTerm, List.get?] at hrun
        rcases sched with _ | ⟨p4, sched⟩
        · rw [cpmRun] at hrun
          injection hrun with h
          subst h
          simp at hdone
        rcases p4 with _ | _ | p4
        · -- port A terminates: multiplier returns
          simp [cpmRun, cpmStep, listProd, isTerm, List.get?] at hrun
          rcases sched with _ | ⟨p5, sched⟩
          · rw [cpmRun] at hrun
            injection hrun with h
            subst h
            decide
          · simp [cpmRun, cpmStep] at hrun
        · simp [cpmRun, cpmStep, listProd, isTerm, List.get?] at hrun
        · simp [cpmRun, cpmStep, listProd, isTerm, List.get?] at hrun
      · simp [cpmRun, cpmStep, listProd, isTerm, List.get?] at hrun
    · -- port B completes with its TerminationToken
      simp [cpmRun, cpmStep, listProd, isTerm, List.get?] at hrun
      rcases sched with _ | ⟨p3, sched⟩
      · rw [cpmRun] at hrun
        injection hrun with h
        subst h
        simp at hdone
      rcases p3 with _ | _ | p3
      · -- port A completes with a2
        simp [cpmRun, cpmStep, listProd, isTerm, List.get?] at hrun
        rcases sched with _ | ⟨p4, sched⟩
        · rw [cpmRun] at hrun
          injection hrun with h
          subst h
          simp at hdone
        rcases p4 with _ | _ | p4
        · -- port A terminates: multiplier returns
          simp [cpmRun, cpmStep, listProd, isTerm, List.get?] at hrun
          rcases sched with _ | ⟨p5, sched⟩
          · rw [cpmRun] at hrun
            injection hrun with h
            subst h
            decide
          · simp [cpmRun, cpmStep] at hrun
        · simp [cpmRun, cpmStep, listProd, isTerm, List.get?] at hrun
        · simp [cpmRun, cpmStep, listProd, isTerm, List.get?] at hrun
      · simp [cpmRun, cpmStep, listProd, isTerm, List.get?] at hrun
      · simp [cpmRun, cpmStep, listProd, isTerm, List.get?] at hrun
    · simp [cpmRun, cpmStep, listProd, isTerm, List.get?] at hrun
  · simp [cpmRun, cpmStep, listProd, c2Init, List.get?] at hrun

/-- Witness for `c2_cartesian_missing_combination` at the schedule
a2, b2, ⊥A, ⊥B. -/
theorem c2_cartesian_missing_combination_witness :
    cpmRun "c" [0, 1, 0, 1] c2Init = some c2Final ∧ c2Final.done = true ∧
    (c2Final.queue.head? = some [a1, b1] ∧
      c2Final.queue.dropLast.Perm [[a1, b1], [a2, b1], [a1, b2]] ∧
      [a2, b2] ∉ c2Final.queue ∧
      (∀ f ∈ c2Final.queue.dropLast, check_termination f = false) ∧
      c2Final.queue.getLast? = some [Token.term "c"]) :=
  ⟨by decide, by decide,
   c2_cartesian_missing_combination [0, 1, 0, 1] c2Final (by decide) (by decide)⟩

/-! ## Task-runner lemmas -/

/-- Every event a schedule drains comes from one of the drivers' emission
lists. -/
theorem drainJobs_mem : ∀ (sched : List Nat) (jobs : List (List (String × Token)))
    (tr : List (String × Token)), drainJobs sched jobs = some tr →
    ∀ e ∈ tr, ∃ j ∈ jobs, e ∈ j
  | [], jobs, tr => by
    intro h e he
    rw [drainJobs] at h
    split at h
    · cases h
      cases he
    · cases h
  | c :: cs, jobs, tr => by
    intro h e he
    rw [drainJobs] at h
    split at h
    case _ e' rest hget =>
      obtain ⟨tr', htr', rfl⟩ := Option.map_eq_some'.mp h
      rcases List.mem_cons.mp he with rfl | he'
      · exact ⟨e :: rest, List.get?_mem hget, by simp⟩
      · obtain ⟨j, hj, hej⟩ := drainJobs_mem cs (jobs.set c rest) tr' htr' e he'
        rcases List.mem_or_eq_of_mem_set hj with hj' | rfl
        · exact ⟨j, hj', hej⟩
        · exact ⟨e' :: j, List.get?_mem hget, by simp [hej]⟩
    case _ => cases h

/-- A port trace splits over appended put sequences. -/
theorem portTrace_append (p : String) (a b : List (String × Token)) :
    portTrace p (a ++ b) = portTrace p a ++ portTrace p b := by
  simp [portTrace, List.filter_append]

/-- Filtering the termination puts to a port absent from the names is empty. -/
theorem filter_term_puts_nil (p : String) : ∀ (l : List String), p ∉ l →
    (l.map (fun q => (q, Token.term q))).filter (fun e => e.1 == p) = []
  | [], _ => rfl
  | q :: rest, h => by
    have hq : (q == p) = false := by
      simp only [beq_eq_false_iff_ne]
      intro hqp
      exact h (by simp [hqp])
    simp only [List.map_cons, List.filter_cons, hq, Bool.false_eq_true, if_false]
    exact filter_term_puts_nil p rest (fun hm => h (by simp [hm]))

/-- Filtering the termination puts of distinct ports to one of the ports leaves
exactly its own termination put. -/
theorem filter_term_puts (p : String) : ∀ (portNames : List String), portNames.Nodup →
    p ∈ portNames →
    (portNames.map (fun q => (q, Token.term q))).filter (fun e => e.1 == p) =
      [(p, Token.term p)]
  | [], _, hp => absurd hp (List.not_mem_nil p)
  | q :: rest, hnodup, hp => by
    rcases List.mem_cons.mp hp with rfl | hp'
    · simp only [List.map_cons, List.filter_cons, beq_self_eq_true, if_true]
      rw [filter_term_puts_nil p rest (List.nodup_cons.mp hnodup).1]
    · have hq : (q == p) = false := by
        simp only [beq_eq_false_iff_ne]
        rintro rfl
        exact (List.nodup_cons.mp hnodup).1 hp'
      simp only [List.map_cons, List.filter_cons, hq, Bool.false_eq_true, if_false]
      exact filter_term_puts p rest (List.nodup_cons.mp hnodup).2 hp'

/-- **C8**. `BaseTask.run` puts exactly one `TerminationToken` on each output
port, and only after every spawned job driver has completed (the gather
barrier), so on every output port all firing outputs precede the single
`TerminationToken` and nothing follows it. -/
theorem c8_termination_after_outputs (portNames : List String)
    (jobs : List (List (String × Token))) (sched : List Nat)
    (tr : List (String × Token)) (hnodup : portNames.Nodup)
    (hjobs : ∀ j ∈ jobs, ∀ e ∈ j, isTerm e.2 = false)
    (hrun : task_run_puts portNames jobs sched = some tr) :
    ∀ p ∈ portNames, ∃ pre, portTrace p tr = pre ++ [Token.term p] ∧
      ∀ t ∈ pre, isTerm t = false := by
  intro p hp
  obtain ⟨dtr, hd, rfl⟩ : ∃ dtr, drainJobs sched jobs = some dtr ∧
      tr = dtr ++ portNames.map (fun q => (q, Token.term q)) := by
    unfold task_run_puts at hrun
    obtain ⟨dtr, hd, htr⟩ := Option.map_eq_some'.mp hrun
    exact ⟨dtr, hd, htr.symm⟩
  refine ⟨portTrace p dtr, ?_, ?_⟩
  · rw [portTrace_append]
    congr 1
    unfold portTrace
    rw [filter_term_puts p portNames hnodup hp]
    rfl
  · intro t ht
    simp only [portTrace, List.mem_map] at ht
    obtain ⟨e, hef, rfl⟩ := ht
    obtain ⟨j, hj, hej⟩ := drainJobs_mem sched jobs dtr hd e (List.mem_of_mem_filter hef)
    exact hjobs j hj e hej

/-- Witness for `c8_termination_after_outputs`: one driver, one output port. -/
theorem c8_termination_after_outputs_witness :
    ∃ pre, portTrace "out" [("out", Token.val "v"), ("out", Token.term "out")] =
      pre ++ [Token.term "out"] ∧ ∀ t ∈ pre, isTerm t = false :=
  c8_termination_after_outputs ["out"] [[("out", Token.val "v")]] [0]
    [("out", Token.val "v"), ("out", Token.term "out")]
    (by decide) (by decide) (by decide) "out" (by decide)

/-- **C10**. A `copy` call with kind `REMOTE_TO_REMOTE`, this connector as the
source connector, the source location among the destinations and `src ≠ dst`
mutates the caller's `locations` list in place, removing the source location
before the remaining destinations are streamed to; every other `copy` call
leaves the list unchanged. -/
theorem c10_locations_mutation (self_id : Nat) (src dst : String)
    (locations : List Nat) (kind : ConnectorCopyKind) (sc : Option Nat)
    (sl : Option Nat) :
    (∀ l, kind = .remote_to_remote → sl = some l → sc.getD self_id = self_id →
      l ∈ locations → src ≠ dst →
      copy self_id src dst locations kind sc sl =
        .ok (.remoteToRemote (some l) (locations.erase l) src dst, locations.erase l)) ∧
    ((kind ≠ .remote_to_remote ∨
        ∀ l, sl = some l → ¬(sc.getD self_id = self_id ∧ l ∈ locations ∧ src ≠ dst)) →
      locationsAfter (copy self_id src dst locations kind sc sl) locations = locations) := by
  constructor
  · intro l hk hsl hsc hmem hne
    subst hk; subst hsl
    simp [copy, copy_remote_to_remote, hsc, hmem, hne]
  · intro h
    rcases kind with _ | _ | _
    · simp [copy, locationsAfter]
    · rcases locations with _ | ⟨x, _ | _⟩ <;> simp [copy, locationsAfter]
    · rcases sl with _ | l
      · simp [copy, locationsAfter]
      · rcases h with h | h
        · exact absurd rfl h
        · have hns := h l rfl
          simp [copy, copy_remote_to_remote, locationsAfter, hns]

/-- Witness for `c10_locations_mutation`: the mutating case at a concrete call. -/
theorem c10_locations_mutation_witness :
    copy 7 "/s" "/d" [3, 5] .remote_to_remote (some 7) (some 5) =
      .ok (.remoteToRemote (some 5) [3] "/s" "/d", [3]) :=
  (c10_locations_mutation 7 "/s" "/d" [3, 5] .remote_to_remote (some 7) (some 5)).1
    5 rfl rfl (by decide) (by decide) (by decide)

end Streamflow
